import Mathlib

/-!
Shallow embedding of the container orchestrator in `src/mod.tsx`
(class `ContainerOrchestrator`) together with theorems about its
task-lifecycle operations and reconciliation sweeps.

Modelling conventions:
* The JavaScript `Map<string, Task>` is an insertion-ordered association
  list `TaskMap`; `mapGet`, `mapSet`, `mapDelete` mirror `Map.get`,
  `Map.set` (replace in place if the key is present, append otherwise)
  and `Map.delete`.
* The external container runtime (`runCommand`, which spawns a `podman`
  subprocess) is a pure oracle `Runtime : List String → CmdResult`
  mapping the argv vector to the subprocess outcome.
* `new Date().toISOString()` is a `now : String` parameter.
* `crypto.randomUUID()` is a `newId : String` parameter of `createTask`.
* Side effects are recorded in an event trace: `Event.cmd argv` for each
  subprocess invocation and `Event.save m` for each `saveState` call,
  carrying the persisted task map (the durable snapshot's `tasks` field).
-/

namespace Orch

inductive TaskStatus where
  | stopped
  | running
  | error
  | pending
deriving DecidableEq, Repr

structure Task where
  id : String
  name : String
  image : String
  command : Option (List String)
  env : Option (List (String × String))
  ports : Option (List String)
  volumes : Option (List String)
  status : TaskStatus
  containerId : Option String
  createdAt : String
  updatedAt : String
  autoRestart : Bool
deriving DecidableEq, Repr

structure ContainerInfo where
  id : String
  status : String
  name : String
  image : String
deriving DecidableEq, Repr

structure CmdResult where
  success : Bool
  output : String
  error : Option String
deriving DecidableEq, Repr

/-- The external container runtime as a pure oracle: argv vector to
subprocess outcome (`runCommand` in the source). -/
def Runtime : Type := List String → CmdResult

abbrev TaskMap := List (String × Task)

inductive Event where
  | cmd : List String → Event
  | save : TaskMap → Event
deriving DecidableEq, Repr

structure OpResult where
  success : Bool
  message : String
deriving DecidableEq, Repr

structure LogsResult where
  success : Bool
  logs : Option String
  message : Option String
deriving DecidableEq, Repr

/-- Input of `createTask`: `Omit<Task, "id" | "createdAt" | "updatedAt" | "status">`.
Note that the TypeScript `Omit` keeps the optional `containerId` field. -/
structure TaskData where
  name : String
  image : String
  command : Option (List String)
  env : Option (List (String × String))
  ports : Option (List String)
  volumes : Option (List String)
  containerId : Option String
  autoRestart : Bool
deriving DecidableEq, Repr

/-- `Map.get`. -/
def mapGet (m : TaskMap) (k : String) : Option Task :=
  match m with
  | [] => none
  | p :: rest => if p.1 = k then some p.2 else mapGet rest k

/-- `Map.set`: replace in place when the key is present, append otherwise. -/
def mapSet (m : TaskMap) (k : String) (v : Task) : TaskMap :=
  match m with
  | [] => [(k, v)]
  | p :: rest => if p.1 = k then (k, v) :: rest else p :: mapSet rest k v

/-- `Map.delete`. -/
def mapDelete (m : TaskMap) (k : String) : TaskMap :=
  match m with
  | [] => []
  | p :: rest => if p.1 = k then rest else p :: mapDelete rest k

/-- JavaScript template-literal rendering of `result.error`, which is
`undefined` when the stderr capture was empty. -/
def errStr : Option String → String
  | none => "undefined"
  | some s => s

/-- The `--format` argument of `podman inspect` in `getContainerInfo`. -/
def inspectFormat : String :=
  "\x7b\x7b.Id\x7d\x7d,\x7b\x7b.State.Status\x7d\x7d,\x7b\x7b.Name\x7d\x7d,\x7b\x7b.Config.Image\x7d\x7d"

def inspectCmd (containerId : String) : List String :=
  ["podman", "inspect", "--format", inspectFormat, containerId]

/-- `result.output.trim().split(",")` destructured into the four
`ContainerInfo` fields (a missing component is `undefined` in JS; we use
`""`, which is likewise never equal to the only value compared against,
`"running"`). -/
def parseInspectOutput (out : String) : ContainerInfo :=
  let parts := out.trim.splitOn (",")
  { id := parts.getD 0 (""), status := parts.getD 1 (""),
    name := parts.getD 2 (""), image := parts.getD 3 ("") }

/-- `getContainerInfo`: `null` whenever the inspect invocation fails,
the parsed snapshot otherwise. -/
def getContainerInfo (rt : Runtime) (containerId : String) : Option ContainerInfo :=
  let result := rt (inspectCmd containerId)
  if result.success = true then some (parseInspectOutput result.output) else none

/-- The `-p` / `-v` flag pairs pushed for each entry of an optional list. -/
def optFlagPairs (o : Option (List String)) (flag : String) : List String :=
  match o with
  | some xs => (xs.map (fun x => [flag, x])).flatten
  | none => []

/-- The `-e KEY=value` pairs pushed for each `Object.entries(task.env)`. -/
def envFlagPairs (o : Option (List (String × String))) : List String :=
  match o with
  | some es => (es.map (fun kv => ["-e", kv.1 ++ "=" ++ kv.2])).flatten
  | none => []

/-- `task.command && task.command.length > 0 ? task.command : []`. -/
def commandSuffix (o : Option (List String)) : List String :=
  match o with
  | some c => if 0 < c.length then c else []
  | none => []

/-- The `podman run` argv built by `startTask` from the stored task spec. -/
def buildRunCmd (task : Task) : List String :=
  "podman" :: "run" :: "-d" :: "--name" :: ("task-" ++ task.id) ::
    (optFlagPairs task.ports ("-p") ++ optFlagPairs task.volumes ("-v") ++
      envFlagPairs task.env ++ [task.image] ++ commandSuffix task.command)

/-- `createTask`: spreads the request data, stamps id / status / timestamps,
inserts, persists, returns the new record. No field is validated. -/
def createTask (newId now : String) (ts : TaskMap) (d : TaskData) :
    TaskMap × Task × List Event :=
  let task : Task :=
    { id := newId, name := d.name, image := d.image, command := d.command,
      env := d.env, ports := d.ports, volumes := d.volumes,
      status := TaskStatus.stopped, containerId := d.containerId,
      createdAt := now, updatedAt := now, autoRestart := d.autoRestart }
  let ts1 := mapSet ts newId task
  (ts1, task, [Event.save ts1])

/-- `startTask`: look the task up, store it as `pending` (in memory only),
issue `podman run`, then store and persist the `running` / `error` outcome. -/
def startTask (rt : Runtime) (now : String) (ts : TaskMap) (taskId : String) :
    TaskMap × OpResult × List Event :=
  match mapGet ts taskId with
  | none => (ts, ⟨false, "Task not found"⟩, [])
  | some task =>
    let cmd := buildRunCmd task
    let ts1 := mapSet ts taskId { task with status := TaskStatus.pending, updatedAt := now }
    let result := rt cmd
    if result.success = true then
      let ts2 := mapSet ts1 taskId
        { task with status := TaskStatus.running,
                    containerId := some result.output.trim, updatedAt := now }
      (ts2, ⟨true, "Task started successfully"⟩, [Event.cmd cmd, Event.save ts2])
    else
      let ts2 := mapSet ts1 taskId { task with status := TaskStatus.error, updatedAt := now }
      (ts2, ⟨false, "Failed to start task: " ++ errStr result.error⟩,
        [Event.cmd cmd, Event.save ts2])

/-- `stopTask`: requires a stored `containerId`; on runtime success stores
`stopped` and persists, on failure returns the message and changes nothing. -/
def stopTask (rt : Runtime) (now : String) (ts : TaskMap) (taskId : String) :
    TaskMap × OpResult × List Event :=
  match mapGet ts taskId with
  | none => (ts, ⟨false, "Task not found"⟩, [])
  | some task =>
    match task.containerId with
    | none => (ts, ⟨false, "No container ID found"⟩, [])
    | some cid =>
      let result := rt ["podman", "stop", cid]
      if result.success = true then
        let ts1 := mapSet ts taskId { task with status := TaskStatus.stopped, updatedAt := now }
        (ts1, ⟨true, "Task stopped successfully"⟩,
          [Event.cmd ["podman", "stop", cid], Event.save ts1])
      else
        (ts, ⟨false, "Failed to stop task: " ++ errStr result.error⟩,
          [Event.cmd ["podman", "stop", cid]])

/-- `removeTask`: best-effort stop (only when `running` with a container),
best-effort `podman rm`, then delete from the map and persist; always
reports success once the task was found. -/
def removeTask (rt : Runtime) (now : String) (ts : TaskMap) (taskId : String) :
    TaskMap × OpResult × List Event :=
  match mapGet ts taskId with
  | none => (ts, ⟨false, "Task not found"⟩, [])
  | some task =>
    let stopped :=
      if task.containerId.isSome = true ∧ task.status = TaskStatus.running then
        let r := stopTask rt now ts taskId
        (r.1, r.2.2)
      else (ts, [])
    let rmTrace : List Event :=
      match task.containerId with
      | some cid => [Event.cmd ["podman", "rm", cid]]
      | none => []
    let ts2 := mapDelete stopped.1 taskId
    (ts2, ⟨true, "Task removed successfully"⟩, stopped.2 ++ rmTrace ++ [Event.save ts2])

/-- `getTaskLogs`: read-only; requires the task and its `containerId`. -/
def getTaskLogs (rt : Runtime) (ts : TaskMap) (taskId : String) :
    LogsResult × List Event :=
  match mapGet ts taskId with
  | none => (⟨false, none, some ("Task or container not found")⟩, [])
  | some task =>
    match task.containerId with
    | none => (⟨false, none, some ("Task or container not found")⟩, [])
    | some cid =>
      let result := rt ["podman", "logs", "--tail", "100", cid]
      if result.success = true then
        (⟨true, some result.output, none⟩, [Event.cmd ["podman", "logs", "--tail", "100", cid]])
      else
        (⟨false, none, some ("Failed to get logs: " ++ errStr result.error)⟩,
          [Event.cmd ["podman", "logs", "--tail", "100", cid]])

/-- One iteration of the `updateTaskStatuses` loop for key `k`: the JS
`for (const [taskId, task] of this.tasks)` reads the live map entry, so the
step looks `k` up in the accumulated map. -/
def syncStep (rt : Runtime) (now : String) (acc : TaskMap × List Event) (k : String) :
    TaskMap × List Event :=
  match mapGet acc.1 k with
  | none => acc
  | some task =>
    match task.containerId with
    | none => acc
    | some cid =>
      let tr := acc.2 ++ [Event.cmd (inspectCmd cid)]
      match getContainerInfo rt cid with
      | none => (acc.1, tr)
      | some info =>
        let newStatus := if info.status = "running" then TaskStatus.running else TaskStatus.stopped
        if newStatus ≠ task.status then
          (mapSet acc.1 k { task with status := newStatus, updatedAt := now }, tr)
        else (acc.1, tr)

/-- `updateTaskStatuses`: sweep every task, then persist once at the end.
Iteration is over the key list of the map at sweep entry (the loop never
inserts or deletes keys, so this is the `Map` iteration order). -/
def updateTaskStatuses (rt : Runtime) (now : String) (ts : TaskMap) :
    TaskMap × List Event :=
  let r := (ts.map Prod.fst).foldl (syncStep rt now) (ts, [])
  (r.1, r.2 ++ [Event.save r.1])

/-- One iteration of the `restartAutoRestartTasks` loop for key `k`. -/
def restartStep (rt : Runtime) (now : String) (acc : TaskMap × List Event) (k : String) :
    TaskMap × List Event :=
  match mapGet acc.1 k with
  | none => acc
  | some task =>
    if task.autoRestart = true ∧ task.status = TaskStatus.running then
      match task.containerId with
      | none => acc
      | some cid =>
        let tr := acc.2 ++ [Event.cmd (inspectCmd cid)]
        match getContainerInfo rt cid with
        | some info =>
          if info.status ≠ "running" then
            let r := startTask rt now acc.1 k
            (r.1, tr ++ r.2.2)
          else (acc.1, tr)
        | none =>
          let r := startTask rt now acc.1 k
          (r.1, tr ++ r.2.2)
    else acc

/-- `restartAutoRestartTasks`: for each task with `autoRestart`, stored
status `running` and a `containerId`, inspect the runtime and call
`startTask` when the container is absent or not running. No save of its
own (`startTask` persists internally). -/
def restartAutoRestartTasks (rt : Runtime) (now : String) (ts : TaskMap) :
    TaskMap × List Event :=
  (ts.map Prod.fst).foldl (restartStep rt now) (ts, [])

/-- `getTasks`. -/
def getTasks (ts : TaskMap) : List Task :=
  ts.map Prod.snd

/-- The record stored for the started task after `startTask` returns,
as a function of the runtime's answer to the built `podman run` argv. -/
def startedTask (rt : Runtime) (now : String) (task : Task) : Task :=
  let result := rt (buildRunCmd task)
  if result.success = true then
    { task with status := TaskStatus.running,
                containerId := some result.output.trim, updatedAt := now }
  else { task with status := TaskStatus.error, updatedAt := now }

/-- The record stored for a task after one status-sync iteration touches it. -/
def syncedTask (rt : Runtime) (now : String) (task : Task) : Task :=
  match task.containerId with
  | none => task
  | some cid =>
    match getContainerInfo rt cid with
    | none => task
    | some info =>
      let newStatus := if info.status = "running" then TaskStatus.running else TaskStatus.stopped
      if newStatus ≠ task.status then { task with status := newStatus, updatedAt := now }
      else task

theorem mapGet_mapSet_self (m : TaskMap) (k : String) (v : Task) :
    mapGet (mapSet m k v) k = some v := by
  induction m with
  | nil => simp [mapGet, mapSet]
  | cons p rest ih =>
    by_cases h : p.1 = k
    · simp [mapSet, h, mapGet]
    · simp [mapSet, h, mapGet, ih]

theorem mapGet_mapSet_other (m : TaskMap) {k k' : String} (v : Task) (h : k' ≠ k) :
    mapGet (mapSet m k' v) k = mapGet m k := by
  induction m with
  | nil => simp [mapGet, mapSet, h]
  | cons p rest ih =>
    by_cases hp : p.1 = k'
    · simp [mapSet, hp, mapGet, h]
    · simp only [mapSet, hp, if_neg, mapGet, ih]

theorem mapGet_mapDelete_other (m : TaskMap) {k k' : String} (h : k' ≠ k) :
    mapGet (mapDelete m k') k = mapGet m k := by
  induction m with
  | nil => simp [mapDelete]
  | cons p rest ih =>
    by_cases hp : p.1 = k'
    · simp [mapDelete, hp, mapGet, h]
    · simp only [mapDelete, hp, if_neg, mapGet, ih]

theorem mem_of_mapGet_eq_some {m : TaskMap} {k : String} {v : Task}
    (h : mapGet m k = some v) : (k, v) ∈ m := by
  induction m with
  | nil => simp [mapGet] at h
  | cons p rest ih =>
    by_cases hp : p.1 = k
    · rw [mapGet, if_pos hp] at h
      have hv : p.2 = v := by injection h
      have hpkv : p = (k, v) := by
        cases p
        simp only at hp hv
        simp [hp, hv]
      rw [← hpkv]
      exact List.mem_cons_self _ _
    · rw [mapGet, if_neg hp] at h
      exact List.mem_cons_of_mem _ (ih h)

theorem key_mem_of_mapGet_eq_some {m : TaskMap} {k : String} {v : Task}
    (h : mapGet m k = some v) : k ∈ m.map Prod.fst := by
  exact List.mem_map.mpr ⟨(k, v), mem_of_mapGet_eq_some h, rfl⟩

theorem mapGet_eq_none_of_not_mem {m : TaskMap} {k : String}
    (h : k ∉ m.map Prod.fst) : mapGet m k = none := by
  induction m with
  | nil => simp [mapGet]
  | cons p rest ih =>
    simp only [List.map_cons, List.mem_cons] at h
    push_neg at h
    rw [mapGet, if_neg (fun hc => h.1 hc.symm)]
    exact ih h.2

theorem keys_mapSet_of_mem {m : TaskMap} {k : String} (v : Task)
    (h : k ∈ m.map Prod.fst) : (mapSet m k v).map Prod.fst = m.map Prod.fst := by
  induction m with
  | nil => simp at h
  | cons p rest ih =>
    by_cases hp : p.1 = k
    · simp [mapSet, hp]
    · simp only [List.map_cons, List.mem_cons] at h
      rcases h with h | h
      · exact absurd h.symm hp
      · simp [mapSet, hp, ih h]

theorem mapGet_mapDelete_self {m : TaskMap} {k : String}
    (h : (m.map Prod.fst).Nodup) : mapGet (mapDelete m k) k = none := by
  induction m with
  | nil => simp [mapDelete, mapGet]
  | cons p rest ih =>
    simp only [List.map_cons, List.nodup_cons] at h
    by_cases hp : p.1 = k
    · simp only [mapDelete]
      rw [if_pos hp]
      exact mapGet_eq_none_of_not_mem (hp ▸ h.1)
    · simp only [mapDelete]
      rw [if_neg hp, mapGet, if_neg hp]
      exact ih h.2

theorem not_mem_keys_mapDelete {m : TaskMap} {k : String}
    (h : (m.map Prod.fst).Nodup) : k ∉ (mapDelete m k).map Prod.fst := by
  induction m with
  | nil => simp [mapDelete]
  | cons p rest ih =>
    simp only [List.map_cons, List.nodup_cons] at h
    by_cases hp : p.1 = k
    · simp only [mapDelete]
      rw [if_pos hp]
      exact hp ▸ h.1
    · simp only [mapDelete]
      rw [if_neg hp]
      simp only [List.map_cons, List.mem_cons]
      push_neg
      exact ⟨fun hc => hp hc.symm, ih h.2⟩

theorem startTask_lookup_self {rt : Runtime} {now : String} {ts : TaskMap}
    {taskId : String} {task : Task} (h : mapGet ts taskId = some task) :
    mapGet (startTask rt now ts taskId).1 taskId = some (startedTask rt now task) := by
  cases hs : (rt (buildRunCmd task)).success with
  | true => simp [startTask, h, hs, startedTask, mapGet_mapSet_self]
  | false => simp [startTask, h, hs, startedTask, mapGet_mapSet_self]

theorem startTask_lookup_other {rt : Runtime} {now : String} {ts : TaskMap}
    {taskId k : String} (h : taskId ≠ k) :
    mapGet (startTask rt now ts taskId).1 k = mapGet ts k := by
  cases hg : mapGet ts taskId with
  | none => simp [startTask, hg]
  | some task =>
    cases hs : (rt (buildRunCmd task)).success with
    | true => simp [startTask, hg, hs, mapGet_mapSet_other _ _ h]
    | false => simp [startTask, hg, hs, mapGet_mapSet_other _ _ h]

theorem startTask_trace {rt : Runtime} {now : String} {ts : TaskMap}
    {taskId : String} {task : Task} (h : mapGet ts taskId = some task) :
    (startTask rt now ts taskId).2.2 =
      [Event.cmd (buildRunCmd task), Event.save (startTask rt now ts taskId).1] := by
  cases hs : (rt (buildRunCmd task)).success with
  | true => simp [startTask, h, hs]
  | false => simp [startTask, h, hs]

theorem stopTask_lookup_other {rt : Runtime} {now : String} {ts : TaskMap}
    {taskId k : String} (h : taskId ≠ k) :
    mapGet (stopTask rt now ts taskId).1 k = mapGet ts k := by
  cases hg : mapGet ts taskId with
  | none => simp [stopTask, hg]
  | some task =>
    cases hc : task.containerId with
    | none => simp [stopTask, hg, hc]
    | some cid =>
      cases hs : (rt ["podman", "stop", cid]).success with
      | true => simp [stopTask, hg, hc, hs, mapGet_mapSet_other _ _ h]
      | false => simp [stopTask, hg, hc, hs]

theorem stopTask_keys (rt : Runtime) (now : String) (ts : TaskMap) (taskId : String) :
    ((stopTask rt now ts taskId).1).map Prod.fst = ts.map Prod.fst := by
  cases hg : mapGet ts taskId with
  | none => simp [stopTask, hg]
  | some task =>
    cases hc : task.containerId with
    | none => simp [stopTask, hg, hc]
    | some cid =>
      cases hs : (rt ["podman", "stop", cid]).success with
      | true =>
        simp only [stopTask, hg, hc, hs, if_pos]
        exact keys_mapSet_of_mem _ (key_mem_of_mapGet_eq_some hg)
      | false => simp [stopTask, hg, hc, hs]

theorem syncStep_lookup_self {rt : Runtime} {now : String} {acc : TaskMap × List Event}
    {k : String} {task : Task} (h : mapGet acc.1 k = some task) :
    mapGet (syncStep rt now acc k).1 k = some (syncedTask rt now task) := by
  cases hc : task.containerId with
  | none => simp [syncStep, h, hc, syncedTask]
  | some cid =>
    cases hgi : getContainerInfo rt cid with
    | none => simp [syncStep, h, hc, hgi, syncedTask]
    | some info =>
      by_cases hst :
          (if info.status = "running" then TaskStatus.running else TaskStatus.stopped) ≠ task.status
      · simp [syncStep, h, hc, hgi, syncedTask, hst, mapGet_mapSet_self]
      · push_neg at hst
        simp [syncStep, h, hc, hgi, syncedTask, hst]

theorem syncStep_lookup_other {rt : Runtime} {now : String} {acc : TaskMap × List Event}
    {k' k : String} (h : k' ≠ k) :
    mapGet (syncStep rt now acc k').1 k = mapGet acc.1 k := by
  cases hg : mapGet acc.1 k' with
  | none => simp [syncStep, hg]
  | some task =>
    cases hc : task.containerId with
    | none => simp [syncStep, hg, hc]
    | some cid =>
      cases hgi : getContainerInfo rt cid with
      | none => simp [syncStep, hg, hc, hgi]
      | some info =>
        by_cases hst :
            (if info.status = "running" then TaskStatus.running else TaskStatus.stopped) ≠ task.status
        · simp [syncStep, hg, hc, hgi, hst, mapGet_mapSet_other _ _ h]
        · push_neg at hst
          simp [syncStep, hg, hc, hgi, hst]

theorem syncFold_lookup_not_mem {rt : Runtime} {now : String} (ks : List String)
    (acc : TaskMap × List Event) {k : String} (h : k ∉ ks) :
    mapGet ((ks.foldl (syncStep rt now) acc).1) k = mapGet acc.1 k := by
  induction ks generalizing acc with
  | nil => rfl
  | cons k0 rest ih =>
    simp only [List.mem_cons] at h
    push_neg at h
    rw [List.foldl_cons, ih _ h.2, syncStep_lookup_other (Ne.symm h.1)]

theorem syncFold_lookup {rt : Runtime} {now : String} (ks : List String)
    (acc : TaskMap × List Event) {k : String} {task : Task}
    (hnd : ks.Nodup) (hk : k ∈ ks) (h : mapGet acc.1 k = some task) :
    mapGet ((ks.foldl (syncStep rt now) acc).1) k = some (syncedTask rt now task) := by
  induction ks generalizing acc with
  | nil => simp at hk
  | cons k0 rest ih =>
    rw [List.foldl_cons]
    rcases List.mem_cons.mp hk with rfl | hmem
    · rw [syncFold_lookup_not_mem rest _ (List.nodup_cons.mp hnd).1]
      exact syncStep_lookup_self h
    · have hne : k0 ≠ k := fun hc => (List.nodup_cons.mp hnd).1 (hc ▸ hmem)
      exact ih (syncStep rt now acc k0) (List.nodup_cons.mp hnd).2 hmem
        (by rw [syncStep_lookup_other hne]; exact h)

theorem updateTaskStatuses_lookup {rt : Runtime} {now : String} {ts : TaskMap}
    {k : String} {task : Task}
    (hnd : (ts.map Prod.fst).Nodup) (h : mapGet ts k = some task) :
    mapGet (updateTaskStatuses rt now ts).1 k = some (syncedTask rt now task) := by
  simp only [updateTaskStatuses]
  exact syncFold_lookup _ _ hnd (key_mem_of_mapGet_eq_some h) h

theorem syncedTask_status {rt : Runtime} {now : String} {task : Task} {cid : String}
    (hc : task.containerId = some cid) :
    (syncedTask rt now task).status =
      (match getContainerInfo rt cid with
       | some info => if info.status = "running" then TaskStatus.running else TaskStatus.stopped
       | none => task.status) := by
  cases hgi : getContainerInfo rt cid with
  | none => simp [syncedTask, hc, hgi]
  | some info =>
    by_cases hst :
        (if info.status = "running" then TaskStatus.running else TaskStatus.stopped) ≠ task.status
    · simp [syncedTask, hc, hgi, hst]
    · push_neg at hst
      simp [syncedTask, hc, hgi, hst]

/-- The record stored for a task after one auto-restart iteration touches it. -/
def restartedTask (rt : Runtime) (now : String) (task : Task) : Task :=
  if task.autoRestart = true ∧ task.status = TaskStatus.running then
    match task.containerId with
    | none => task
    | some cid =>
      match getContainerInfo rt cid with
      | some info => if info.status ≠ "running" then startedTask rt now task else task
      | none => startedTask rt now task
  else task

theorem restartStep_lookup_self {rt : Runtime} {now : String} {acc : TaskMap × List Event}
    {k : String} {task : Task} (h : mapGet acc.1 k = some task) :
    mapGet (restartStep rt now acc k).1 k = some (restartedTask rt now task) := by
  by_cases hq : task.autoRestart = true ∧ task.status = TaskStatus.running
  · cases hc : task.containerId with
    | none => simp [restartStep, h, hq, hc, restartedTask]
    | some cid =>
      cases hgi : getContainerInfo rt cid with
      | none =>
        simp [restartStep, h, hq, hc, hgi, restartedTask, startTask_lookup_self h]
      | some info =>
        by_cases hrun : info.status ≠ "running"
        · simp [restartStep, h, hq, hc, hgi, restartedTask, hrun, startTask_lookup_self h]
        · push_neg at hrun
          simp [restartStep, h, hq, hc, hgi, restartedTask, hrun]
  · simp [restartStep, h, hq, restartedTask]

theorem restartStep_lookup_other {rt : Runtime} {now : String} {acc : TaskMap × List Event}
    {k' k : String} (h : k' ≠ k) :
    mapGet (restartStep rt now acc k').1 k = mapGet acc.1 k := by
  cases hg : mapGet acc.1 k' with
  | none => simp [restartStep, hg]
  | some task =>
    by_cases hq : task.autoRestart = true ∧ task.status = TaskStatus.running
    · cases hc : task.containerId with
      | none => simp [restartStep, hg, hq, hc]
      | some cid =>
        cases hgi : getContainerInfo rt cid with
        | none =>
          simp [restartStep, hg, hq, hc, hgi, startTask_lookup_other h]
        | some info =>
          by_cases hrun : info.status ≠ "running"
          · simp [restartStep, hg, hq, hc, hgi, hrun, startTask_lookup_other h]
          · push_neg at hrun
            simp [restartStep, hg, hq, hc, hgi, hrun]
    · simp [restartStep, hg, hq]

theorem restartFold_lookup_not_mem {rt : Runtime} {now : String} (ks : List String)
    (acc : TaskMap × List Event) {k : String} (h : k ∉ ks) :
    mapGet ((ks.foldl (restartStep rt now) acc).1) k = mapGet acc.1 k := by
  induction ks generalizing acc with
  | nil => rfl
  | cons k0 rest ih =>
    simp only [List.mem_cons] at h
    push_neg at h
    rw [List.foldl_cons, ih _ h.2, restartStep_lookup_other (Ne.symm h.1)]

theorem restartFold_lookup {rt : Runtime} {now : String} (ks : List String)
    (acc : TaskMap × List Event) {k : String} {task : Task}
    (hnd : ks.Nodup) (hk : k ∈ ks) (h : mapGet acc.1 k = some task) :
    mapGet ((ks.foldl (restartStep rt now) acc).1) k = some (restartedTask rt now task) := by
  induction ks generalizing acc with
  | nil => simp at hk
  | cons k0 rest ih =>
    rw [List.foldl_cons]
    rcases List.mem_cons.mp hk with rfl | hmem
    · rw [restartFold_lookup_not_mem rest _ (List.nodup_cons.mp hnd).1]
      exact restartStep_lookup_self h
    · have hne : k0 ≠ k := fun hc => (List.nodup_cons.mp hnd).1 (hc ▸ hmem)
      exact ih (restartStep rt now acc k0) (List.nodup_cons.mp hnd).2 hmem
        (by rw [restartStep_lookup_other hne]; exact h)

theorem restartAutoRestartTasks_lookup {rt : Runtime} {now : String} {ts : TaskMap}
    {k : String} {task : Task}
    (hnd : (ts.map Prod.fst).Nodup) (h : mapGet ts k = some task) :
    mapGet (restartAutoRestartTasks rt now ts).1 k = some (restartedTask rt now task) := by
  exact restartFold_lookup _ _ hnd (key_mem_of_mapGet_eq_some h) h

/-- Well-formedness of the task map as maintained by the orchestrator:
`Map` keys are unique, and every entry is stored under its own `task.id`
(`this.tasks.set(task.id, task)` / `this.tasks.set(taskId, ...)`). -/
def wfMap (ts : TaskMap) : Prop :=
  (ts.map Prod.fst).Nodup ∧ ∀ p ∈ ts, p.2.id = p.1

theorem mapGet_id {ts : TaskMap} {k : String} {task : Task}
    (hwf : wfMap ts) (h : mapGet ts k = some task) : task.id = k :=
  hwf.2 (k, task) (mem_of_mapGet_eq_some h)

theorem mapGet_isSome_of_mem_keys {m : TaskMap} {k : String}
    (h : k ∈ m.map Prod.fst) : ∃ v, mapGet m k = some v := by
  induction m with
  | nil => simp at h
  | cons p rest ih =>
    by_cases hp : p.1 = k
    · exact ⟨p.2, by rw [mapGet, if_pos hp]⟩
    · rw [mapGet, if_neg hp]
      apply ih
      simp only [List.map_cons, List.mem_cons] at h
      rcases h with h | h
      · exact absurd h.symm hp
      · exact h

/-- Recognizes the `podman run` invocation that `startTask` issues for the
task with id `i` (the derived container name `task-<id>` identifies it). -/
def isRunFor (i : String) : Event → Bool
  | Event.cmd ("podman" :: "run" :: "-d" :: "--name" :: n :: _) => n == "task-" ++ i
  | _ => false

theorem string_append_left_cancel {s a b : String} (h : s ++ a = s ++ b) : a = b := by
  have h2 := congrArg String.data h
  simp [String.data_append] at h2
  cases a; cases b; simp_all

theorem isRunFor_save (i : String) (m : TaskMap) : isRunFor i (Event.save m) = false := rfl

theorem isRunFor_inspect (i cid : String) : isRunFor i (Event.cmd (inspectCmd cid)) = false := rfl

theorem isRunFor_buildRunCmd (i : String) (task : Task) :
    isRunFor i (Event.cmd (buildRunCmd task)) = (task.id == i) := by
  show (("task-" ++ task.id) == ("task-" ++ i)) = (task.id == i)
  by_cases h : task.id = i
  · simp [h]
  · have hne : ¬("task-" ++ task.id = "task-" ++ i) :=
      fun hc => h (string_append_left_cancel hc)
    simp [h, hne]

/-- Number of `podman run` invocations for the task with id `i` contributed
by one auto-restart iteration that observes the given map entry. -/
def runsFor (rt : Runtime) (i : String) (o : Option Task) : Nat :=
  match o with
  | none => 0
  | some task =>
    if task.autoRestart = true ∧ task.status = TaskStatus.running then
      match task.containerId with
      | none => 0
      | some cid =>
        match getContainerInfo rt cid with
        | some info =>
          if info.status ≠ "running" then (if task.id = i then 1 else 0) else 0
        | none => if task.id = i then 1 else 0
    else 0

theorem countP_startTask_trace {rt : Runtime} {now : String} {ts : TaskMap}
    {taskId : String} {task : Task} (i : String) (h : mapGet ts taskId = some task) :
    ((startTask rt now ts taskId).2.2).countP (isRunFor i) =
      (if task.id = i then 1 else 0) := by
  rw [startTask_trace h]
  by_cases hti : task.id = i
  · simp [List.countP_cons, isRunFor_buildRunCmd, isRunFor_save, hti]
  · simp [List.countP_cons, isRunFor_buildRunCmd, isRunFor_save, hti]

theorem restartStep_trace_count {rt : Runtime} {now : String}
    (acc : TaskMap × List Event) (k i : String) :
    ((restartStep rt now acc k).2).countP (isRunFor i) =
      acc.2.countP (isRunFor i) + runsFor rt i (mapGet acc.1 k) := by
  cases hg : mapGet acc.1 k with
  | none => simp [restartStep, hg, runsFor]
  | some task =>
    by_cases hq : task.autoRestart = true ∧ task.status = TaskStatus.running
    · cases hc : task.containerId with
      | none => simp [restartStep, hg, hq, hc, runsFor]
      | some cid =>
        cases hgi : getContainerInfo rt cid with
        | none =>
          simp [restartStep, hg, hq, hc, hgi, runsFor, List.countP_append,
            List.countP_cons, isRunFor_inspect, countP_startTask_trace i hg]
        | some info =>
          by_cases hrun : info.status ≠ "running"
          · simp [restartStep, hg, hq, hc, hgi, hrun, runsFor, List.countP_append,
              List.countP_cons, isRunFor_inspect, countP_startTask_trace i hg]
          · push_neg at hrun
            simp [restartStep, hg, hq, hc, hgi, hrun, runsFor, List.countP_append,
              List.countP_cons, isRunFor_inspect]
    · simp [restartStep, hg, hq, runsFor]

theorem restartFold_trace_count {rt : Runtime} {now : String} {i : String}
    (ks : List String) (acc : TaskMap × List Event) (hnd : ks.Nodup) :
    (((ks.foldl (restartStep rt now) acc).2).countP (isRunFor i)) =
      acc.2.countP (isRunFor i) + (ks.map (fun k => runsFor rt i (mapGet acc.1 k))).sum := by
  induction ks generalizing acc with
  | nil => simp
  | cons k0 rest ih =>
    rw [List.foldl_cons, ih _ (List.nodup_cons.mp hnd).2, restartStep_trace_count]
    have hmap : rest.map (fun k => runsFor rt i (mapGet (restartStep rt now acc k0).1 k)) =
        rest.map (fun k => runsFor rt i (mapGet acc.1 k)) := by
      apply List.map_congr_left
      intro k hk
      rw [restartStep_lookup_other (fun hc => (List.nodup_cons.mp hnd).1 (by rw [hc]; exact hk))]
    rw [hmap]
    simp only [List.map_cons, List.sum_cons]
    omega

theorem map_sum_eq_single {ks : List String} {f : String → Nat} {k : String}
    (hnd : ks.Nodup) (hk : k ∈ ks) (hother : ∀ k2 ∈ ks, k2 ≠ k → f k2 = 0) :
    (ks.map f).sum = f k := by
  induction ks with
  | nil => simp at hk
  | cons k0 rest ih =>
    simp only [List.map_cons, List.sum_cons]
    rcases List.mem_cons.mp hk with rfl | hmem
    · have hz : (rest.map f).sum = 0 := by
        apply List.sum_eq_zero
        intro x hx
        rcases List.mem_map.mp hx with ⟨k2, hk2, rfl⟩
        exact hother k2 (List.mem_cons_of_mem _ hk2)
          (fun hc => (List.nodup_cons.mp hnd).1 (by rw [← hc]; exact hk2))
      omega
    · have hk0 : f k0 = 0 :=
        hother k0 (List.mem_cons_self _ _)
          (fun hc => (List.nodup_cons.mp hnd).1 (hc ▸ hmem))
      rw [ih (List.nodup_cons.mp hnd).2 hmem
        (fun k2 h2 hne => hother k2 (List.mem_cons_of_mem _ h2) hne), hk0]
      omega

theorem runsFor_of_id_ne {rt : Runtime} {i : String} {task : Task}
    (h : task.id ≠ i) : runsFor rt i (some task) = 0 := by
  by_cases hq : task.autoRestart = true ∧ task.status = TaskStatus.running
  · cases hc : task.containerId with
    | none => simp [runsFor, hq, hc]
    | some cid =>
      cases hgi : getContainerInfo rt cid with
      | none => simp [runsFor, hq, hc, hgi, h]
      | some info =>
        by_cases hrun : info.status ≠ "running"
        · simp [runsFor, hq, hc, hgi, hrun, h]
        · push_neg at hrun
          simp [runsFor, hq, hc, hgi, hrun]
  · simp [runsFor, hq]

theorem restartAutoRestartTasks_count {rt : Runtime} {now : String} {ts : TaskMap}
    {k : String} {task : Task} (hwf : wfMap ts) (hmem : mapGet ts k = some task) :
    ((restartAutoRestartTasks rt now ts).2).countP (isRunFor k) =
      runsFor rt k (some task) := by
  rw [restartAutoRestartTasks, restartFold_trace_count _ _ hwf.1]
  simp only [List.countP_nil, Nat.zero_add]
  rw [map_sum_eq_single hwf.1 (key_mem_of_mapGet_eq_some hmem), hmem]
  intro k2 hk2 hne
  rcases mapGet_isSome_of_mem_keys hk2 with ⟨v, hv⟩
  rw [hv]
  exact runsFor_of_id_ne (by rw [mapGet_id hwf hv]; exact hne)

theorem startedTask_status (rt : Runtime) (now : String) (task : Task) :
    (startedTask rt now task).status =
      (if (rt (buildRunCmd task)).success = true then TaskStatus.running
       else TaskStatus.error) := by
  cases hs : (rt (buildRunCmd task)).success <;> simp [startedTask, hs]

theorem restartedTask_eq_startedTask {rt : Runtime} {now : String} {task : Task} {cid : String}
    (har : task.autoRestart = true) (hst : task.status = TaskStatus.running)
    (hcid : task.containerId = some cid)
    (hneeds : ∀ info, getContainerInfo rt cid = some info → info.status ≠ "running") :
    restartedTask rt now task = startedTask rt now task := by
  cases hgi : getContainerInfo rt cid with
  | none => simp [restartedTask, har, hst, hcid, hgi]
  | some info => simp [restartedTask, har, hst, hcid, hgi, hneeds info hgi]

theorem restartedTask_eq_self {rt : Runtime} {now : String} {task : Task}
    (h : ¬(task.autoRestart = true ∧ task.status = TaskStatus.running ∧
        task.containerId.isSome = true)) :
    restartedTask rt now task = task := by
  by_cases hq : task.autoRestart = true ∧ task.status = TaskStatus.running
  · cases hc : task.containerId with
    | none => simp [restartedTask, hq, hc]
    | some cid => exact absurd ⟨hq.1, hq.2, by simp [hc]⟩ h
  · simp [restartedTask, hq]

theorem runsFor_one_of_needed {rt : Runtime} {task : Task} {cid k : String}
    (har : task.autoRestart = true) (hst : task.status = TaskStatus.running)
    (hcid : task.containerId = some cid)
    (hneeds : ∀ info, getContainerInfo rt cid = some info → info.status ≠ "running")
    (hid : task.id = k) : runsFor rt k (some task) = 1 := by
  cases hgi : getContainerInfo rt cid with
  | none => simp [runsFor, har, hst, hcid, hgi, hid]
  | some info => simp [runsFor, har, hst, hcid, hgi, hneeds info hgi, hid]

theorem runsFor_zero_of_not_qualifying {rt : Runtime} {i : String} {task : Task}
    (h : ¬(task.autoRestart = true ∧ task.status = TaskStatus.running ∧
        task.containerId.isSome = true)) :
    runsFor rt i (some task) = 0 := by
  by_cases hq : task.autoRestart = true ∧ task.status = TaskStatus.running
  · cases hc : task.containerId with
    | none => simp [runsFor, hq, hc]
    | some cid => exact absurd ⟨hq.1, hq.2, by simp [hc]⟩ h
  · simp [runsFor, hq]

/-- A sample task record used in concrete instances. -/
def sampleTask (i : String) (st : TaskStatus) (cid : Option String) (ar : Bool) : Task :=
  { id := i, name := "web", image := "nginx:latest", command := none, env := none,
    ports := none, volumes := none, status := st, containerId := cid,
    createdAt := "2024-01-01T00:00:00.000Z", updatedAt := "2024-01-01T00:00:00.000Z",
    autoRestart := ar }

/-- A runtime whose every invocation fails at the transport level
(e.g. the podman socket is unreachable). -/
def rtAllFail : Runtime := fun _ => ⟨false, "", some ("cannot connect to podman socket")⟩

/-- A runtime whose every invocation fails with an unambiguous
not-found error. -/
def rtNotFoundFail : Runtime := fun _ => ⟨false, "", some ("Error: no such container abc")⟩

/-- A runtime whose every invocation succeeds: `run` prints a container id,
`inspect` prints a running snapshot. -/
def rtAllOk : Runtime := fun c =>
  if c.take 2 = ["podman", "run"] then ⟨true, "abc123\n", none⟩
  else ⟨true, "abc123,running,web,nginx:latest", none⟩

def taskStopped : Task := sampleTask ("t1") TaskStatus.stopped none false

def taskRunning : Task := sampleTask ("t1") TaskStatus.running (some ("c1")) true

def tsStopped : TaskMap := [("t1", taskStopped)]

def tsRunning : TaskMap := [("t1", taskRunning)]

def tsTwo : TaskMap :=
  [("t1", taskRunning), ("t2", sampleTask ("t2") TaskStatus.running (some ("c2")) false)]

def dWeb : TaskData :=
  { name := "web", image := "nginx:latest", command := none, env := none,
    ports := none, volumes := none, containerId := none, autoRestart := false }

def dEmpty : TaskData :=
  { name := "", image := "", command := none, env := none,
    ports := none, volumes := none, containerId := none, autoRestart := false }

/-- C1 counterexample: a task with `containerId = "c1"` and stored status
`running`, swept while the runtime reports the container absent (inspect
fails), keeps status `running` — the sweep does not set `stopped` on
absence, because `updateTaskStatuses` skips the update when
`getContainerInfo` returns `null`. -/
theorem c1_counterexample :
    (mapGet (updateTaskStatuses rtAllFail ("2024-01-02T00:00:00.000Z") tsRunning).1
        ("t1")).map Task.status = some TaskStatus.running := by decide

/-- C1 (amended): one status-sync sweep sets a `containerId`-bearing task's
stored status to `running` when the runtime snapshot reports `running` and
to `stopped` when a snapshot is observed in any other state; when the
container is absent (inspect fails, no snapshot), the stored status is left
unchanged. -/
theorem c1_status_sync (rt : Runtime) (now : String) (ts : TaskMap)
    (k cid : String) (task : Task)
    (hnd : (ts.map Prod.fst).Nodup) (hmem : mapGet ts k = some task)
    (hcid : task.containerId = some cid) :
    mapGet (updateTaskStatuses rt now ts).1 k = some (syncedTask rt now task) ∧
    (syncedTask rt now task).status =
      (match getContainerInfo rt cid with
       | some info => if info.status = "running" then TaskStatus.running else TaskStatus.stopped
       | none => task.status) :=
  ⟨updateTaskStatuses_lookup hnd hmem, syncedTask_status hcid⟩

/-- C1 witness: the amended theorem applied to a concrete one-task store
with the runtime reporting the container absent. -/
theorem c1_status_sync_witness :
    mapGet (updateTaskStatuses rtAllFail ("2024-01-02T00:00:00.000Z") tsRunning).1 ("t1") =
      some (syncedTask rtAllFail ("2024-01-02T00:00:00.000Z") taskRunning) ∧
    (syncedTask rtAllFail ("2024-01-02T00:00:00.000Z") taskRunning).status =
      (match getContainerInfo rtAllFail ("c1") with
       | some info => if info.status = "running" then TaskStatus.running else TaskStatus.stopped
       | none => taskRunning.status) :=
  c1_status_sync rtAllFail ("2024-01-02T00:00:00.000Z") tsRunning ("t1") ("c1") taskRunning
    (by decide) (by decide) (by decide)

/-- C2: in one auto-restart sweep, a task with `autoRestart = true`, stored
status `running` and a `containerId` whose runtime snapshot is absent or
not `running` gets exactly one new `podman run` invocation (the `startTask`
procedure), ending `running` or `error` according to that invocation's
outcome; a task failing any of the three conditions is left untouched and
gets no run invocation. -/
theorem c2_auto_restart_sweep (rt : Runtime) (now : String) (ts : TaskMap)
    (k cid : String) (task : Task)
    (hwf : wfMap ts) (hmem : mapGet ts k = some task) :
    (task.autoRestart = true → task.status = TaskStatus.running →
      task.containerId = some cid →
      (∀ info, getContainerInfo rt cid = some info → info.status ≠ "running") →
      mapGet (restartAutoRestartTasks rt now ts).1 k = some (startedTask rt now task) ∧
      ((startedTask rt now task).status = TaskStatus.running ∨
        (startedTask rt now task).status = TaskStatus.error) ∧
      ((startedTask rt now task).status = TaskStatus.running ↔
        (rt (buildRunCmd task)).success = true) ∧
      ((restartAutoRestartTasks rt now ts).2).countP (isRunFor k) = 1) ∧
    (¬(task.autoRestart = true ∧ task.status = TaskStatus.running ∧
        task.containerId.isSome = true) →
      mapGet (restartAutoRestartTasks rt now ts).1 k = some task ∧
      ((restartAutoRestartTasks rt now ts).2).countP (isRunFor k) = 0) := by
  constructor
  · intro har hst hcid hneeds
    refine ⟨?_, ?_, ?_, ?_⟩
    · rw [restartAutoRestartTasks_lookup hwf.1 hmem,
        restartedTask_eq_startedTask har hst hcid hneeds]
    · rw [startedTask_status]
      cases hs : (rt (buildRunCmd task)).success <;> simp [hs]
    · rw [startedTask_status]
      cases hs : (rt (buildRunCmd task)).success <;> simp [hs]
    · rw [restartAutoRestartTasks_count hwf hmem,
        runsFor_one_of_needed har hst hcid hneeds (mapGet_id hwf hmem)]
  · intro hnq
    refine ⟨?_, ?_⟩
    · rw [restartAutoRestartTasks_lookup hwf.1 hmem, restartedTask_eq_self hnq]
    · rw [restartAutoRestartTasks_count hwf hmem, runsFor_zero_of_not_qualifying hnq]

/-- C2 witness: a two-task store in which `t1` qualifies for auto-restart
(container absent, restart attempt fails, so `t1` ends in `error` with one
run issued) while `t2` has `autoRestart = false` and is untouched. -/
theorem c2_auto_restart_sweep_witness :
    ((restartAutoRestartTasks rtAllFail ("T2") tsTwo).2).countP (isRunFor ("t1")) = 1 ∧
    ((startedTask rtAllFail ("T2") taskRunning).status = TaskStatus.running ∨
      (startedTask rtAllFail ("T2") taskRunning).status = TaskStatus.error) ∧
    mapGet (restartAutoRestartTasks rtAllFail ("T2") tsTwo).1 ("t2") =
      some (sampleTask ("t2") TaskStatus.running (some ("c2")) false) ∧
    ((restartAutoRestartTasks rtAllFail ("T2") tsTwo).2).countP (isRunFor ("t2")) = 0 := by
  have hneeds : ∀ info, getContainerInfo rtAllFail ("c1") = some info →
      info.status ≠ "running" := by
    intro info h
    rw [show getContainerInfo rtAllFail ("c1") = none by decide] at h
    exact Option.noConfusion h
  have h1 := (c2_auto_restart_sweep rtAllFail ("T2") tsTwo ("t1") ("c1") taskRunning
    ⟨by decide, by decide⟩ (by decide)).1 (by decide) (by decide) (by decide) hneeds
  have h2 := (c2_auto_restart_sweep rtAllFail ("T2") tsTwo ("t2") ("c2")
    (sampleTask ("t2") TaskStatus.running (some ("c2")) false)
    ⟨by decide, by decide⟩ (by decide)).2 (by decide)
  exact ⟨h1.2.2.2, h1.2.1, h2.1, h2.2⟩

/-- C3 counterexample: starting a concrete stopped task, the event trace of
`startTask` contains no persisted snapshot in which the task is `pending`,
contains exactly one persisted snapshot in total, and its first event is
already the `podman run` invocation — so the pending state is never
persisted before (or after) the run is issued. -/
theorem c3_counterexample :
    ((startTask rtAllOk ("T2") tsStopped ("t1")).2.2).countP
        (fun e => match e with
          | Event.save m => (mapGet m ("t1")).map Task.status == some TaskStatus.pending
          | _ => false) = 0 ∧
    ((startTask rtAllOk ("T2") tsStopped ("t1")).2.2).countP
        (fun e => match e with
          | Event.save _ => true
          | _ => false) = 1 ∧
    List.head? ((startTask rtAllOk ("T2") tsStopped ("t1")).2.2) =
      some (Event.cmd (buildRunCmd taskStopped)) := by decide

/-- C3 (amended): `startTask` marks the task `pending` only in the
in-memory map; it does not persist before issuing the run invocation. The
whole trace is one `podman run` followed by exactly one save, whose
snapshot holds the final (`running` / `error`) status — `pending` is never
observable in durable storage. -/
theorem c3_pending_not_persisted (rt : Runtime) (now : String) (ts : TaskMap)
    (taskId : String) (task : Task) (hmem : mapGet ts taskId = some task) :
    (startTask rt now ts taskId).2.2 =
      [Event.cmd (buildRunCmd task), Event.save (startTask rt now ts taskId).1] ∧
    (∀ m, Event.save m ∈ (startTask rt now ts taskId).2.2 →
      (mapGet m taskId).map Task.status ≠ some TaskStatus.pending) := by
  refine ⟨startTask_trace hmem, ?_⟩
  intro m hm
  rw [startTask_trace hmem] at hm
  simp at hm
  rw [hm, startTask_lookup_self hmem]
  cases hs : (rt (buildRunCmd task)).success <;> simp [startedTask, hs]

/-- C3 witness: the amended theorem applied to a concrete stopped task. -/
theorem c3_pending_not_persisted_witness :
    (startTask rtAllFail ("T2") tsStopped ("t1")).2.2 =
      [Event.cmd (buildRunCmd taskStopped),
        Event.save (startTask rtAllFail ("T2") tsStopped ("t1")).1] :=
  (c3_pending_not_persisted rtAllFail ("T2") tsStopped ("t1") taskStopped (by decide)).1

/-- C4: once `startTask` returns on a task present in the store, the task
is `running` with the runtime-returned (trimmed) container id recorded when
the run succeeded, and `error` when it failed; it is never left `pending`. -/
theorem c4_start_outcome (rt : Runtime) (now : String) (ts : TaskMap)
    (taskId : String) (task : Task) (hmem : mapGet ts taskId = some task) :
    mapGet (startTask rt now ts taskId).1 taskId = some (startedTask rt now task) ∧
    ((rt (buildRunCmd task)).success = true →
      (startedTask rt now task).status = TaskStatus.running ∧
      (startedTask rt now task).containerId = some ((rt (buildRunCmd task)).output.trim) ∧
      (startTask rt now ts taskId).2.1.success = true) ∧
    ((rt (buildRunCmd task)).success = false →
      (startedTask rt now task).status = TaskStatus.error ∧
      (startTask rt now ts taskId).2.1.success = false) ∧
    (startedTask rt now task).status ≠ TaskStatus.pending := by
  refine ⟨startTask_lookup_self hmem, ?_, ?_, ?_⟩
  · intro hs
    exact ⟨by simp [startedTask, hs], by simp [startedTask, hs],
      by simp [startTask, hmem, hs]⟩
  · intro hs
    exact ⟨by simp [startedTask, hs], by simp [startTask, hmem, hs]⟩
  · cases hs : (rt (buildRunCmd task)).success <;> simp [startedTask, hs]

/-- C4 witness: the theorem applied to a concrete stopped task with a
succeeding runtime (container id `abc123`). -/
theorem c4_start_outcome_witness :
    mapGet (startTask rtAllOk ("T2") tsStopped ("t1")).1 ("t1") =
      some (startedTask rtAllOk ("T2") taskStopped) ∧
    (startedTask rtAllOk ("T2") taskStopped).status = TaskStatus.running ∧
    (startedTask rtAllOk ("T2") taskStopped).containerId =
      some ((rtAllOk (buildRunCmd taskStopped)).output.trim) ∧
    (startedTask rtAllOk ("T2") taskStopped).status ≠ TaskStatus.pending := by
  have h := c4_start_outcome rtAllOk ("T2") tsStopped ("t1") taskStopped (by decide)
  have hs := h.2.1 (by decide)
  exact ⟨h.1, hs.1, hs.2.1, h.2.2.2⟩

/-- C5: `stopTask` on a task with no `containerId` fails with the
"No container ID found" message and changes nothing; and when the runtime
stop invocation fails, it returns the failure message and changes nothing. -/
theorem c5_stop_failure_paths (rt : Runtime) (now : String) (ts : TaskMap)
    (taskId : String) (task : Task) (hmem : mapGet ts taskId = some task) :
    (task.containerId = none →
      stopTask rt now ts taskId = (ts, ⟨false, "No container ID found"⟩, [])) ∧
    (∀ cid, task.containerId = some cid →
      (rt ["podman", "stop", cid]).success = false →
      stopTask rt now ts taskId =
        (ts, ⟨false, "Failed to stop task: " ++ errStr (rt ["podman", "stop", cid]).error⟩,
          [Event.cmd ["podman", "stop", cid]])) := by
  constructor
  · intro hc
    simp [stopTask, hmem, hc]
  · intro cid hc hs
    simp [stopTask, hmem, hc, hs]

/-- C5 witness: a task with no container reference, and a task whose stop
invocation fails, both leave the store exactly as it was. -/
theorem c5_stop_failure_paths_witness :
    stopTask rtAllOk ("T2") tsStopped ("t1") =
      (tsStopped, ⟨false, "No container ID found"⟩, []) ∧
    stopTask rtAllFail ("T2") tsRunning ("t1") =
      (tsRunning,
        ⟨false, "Failed to stop task: " ++ errStr (rtAllFail ["podman", "stop", "c1"]).error⟩,
        [Event.cmd ["podman", "stop", "c1"]]) :=
  ⟨(c5_stop_failure_paths rtAllOk ("T2") tsStopped ("t1") taskStopped (by decide)).1
      (by decide),
    (c5_stop_failure_paths rtAllFail ("T2") tsRunning ("t1") taskRunning (by decide)).2
      ("c1") (by decide) (by decide)⟩

/-- C6: `removeTask` on any task present in the store reports success and
leaves the task absent from the store (so absent from any subsequent
`list()`), whatever the task's prior status and whatever the runtime
answers to the best-effort stop and remove invocations. -/
theorem c6_remove_always_removes (rt : Runtime) (now : String) (ts : TaskMap)
    (taskId : String) (task : Task)
    (hnd : (ts.map Prod.fst).Nodup) (hmem : mapGet ts taskId = some task) :
    (removeTask rt now ts taskId).2.1 = ⟨true, "Task removed successfully"⟩ ∧
    mapGet (removeTask rt now ts taskId).1 taskId = none ∧
    taskId ∉ ((removeTask rt now ts taskId).1).map Prod.fst := by
  by_cases hifc : task.containerId.isSome = true ∧ task.status = TaskStatus.running
  · have hnd2 : (((stopTask rt now ts taskId).1).map Prod.fst).Nodup := by
      rw [stopTask_keys]; exact hnd
    refine ⟨by simp [removeTask, hmem, hifc], ?_, ?_⟩
    · simp only [removeTask, hmem, hifc, if_pos]
      exact mapGet_mapDelete_self hnd2
    · simp only [removeTask, hmem, hifc, if_pos]
      exact not_mem_keys_mapDelete hnd2
  · refine ⟨by simp [removeTask, hmem, hifc], ?_, ?_⟩
    · simp only [removeTask, hmem, hifc, if_neg, if_false]
      exact mapGet_mapDelete_self hnd
    · simp only [removeTask, hmem, hifc, if_neg, if_false]
      exact not_mem_keys_mapDelete hnd

/-- C6 witness: removing a running task while every runtime invocation
fails (both the best-effort stop and the best-effort remove) still reports
success and leaves the store without the task. -/
theorem c6_remove_always_removes_witness :
    (removeTask rtAllFail ("T2") tsRunning ("t1")).2.1 =
      ⟨true, "Task removed successfully"⟩ ∧
    mapGet (removeTask rtAllFail ("T2") tsRunning ("t1")).1 ("t1") = none ∧
    ("t1") ∉ ((removeTask rtAllFail ("T2") tsRunning ("t1")).1).map Prod.fst :=
  c6_remove_always_removes rtAllFail ("T2") tsRunning ("t1") taskRunning
    (by decide) (by decide)

/-- Whether the task stored under `k` (if any) carries a `containerId`. -/
def cidSomeAt (ts : TaskMap) (k : String) : Bool :=
  ((mapGet ts k).map (fun t => t.containerId.isSome)).getD false

theorem cidSome_of_cidSomeAt {ts : TaskMap} {k : String} {t : Task}
    (hmem : mapGet ts k = some t) (h : cidSomeAt ts k = true) :
    t.containerId.isSome = true := by
  simpa [cidSomeAt, hmem] using h

theorem startedTask_cidSome {rt : Runtime} {now : String} {task : Task}
    (h : task.containerId.isSome = true) :
    (startedTask rt now task).containerId.isSome = true := by
  cases hs : (rt (buildRunCmd task)).success <;> simp [startedTask, hs, h]

theorem startTask_cidSomeAt {rt : Runtime} {now : String} {ts : TaskMap}
    {taskId k : String} (h : cidSomeAt ts k = true) :
    cidSomeAt (startTask rt now ts taskId).1 k = true := by
  by_cases hk : taskId = k
  · subst hk
    cases hg : mapGet ts taskId with
    | none => simp [cidSomeAt, hg] at h
    | some task =>
      have h2 : task.containerId.isSome = true := cidSome_of_cidSomeAt hg h
      simp [cidSomeAt, startTask_lookup_self hg, startedTask_cidSome h2]
  · rw [cidSomeAt, startTask_lookup_other hk]
    exact h

theorem stopTask_cidSomeAt {rt : Runtime} {now : String} {ts : TaskMap}
    {taskId k : String} (h : cidSomeAt ts k = true) :
    cidSomeAt (stopTask rt now ts taskId).1 k = true := by
  by_cases hk : taskId = k
  · subst hk
    cases hg : mapGet ts taskId with
    | none => simpa [stopTask, hg] using h
    | some task =>
      cases hc : task.containerId with
      | none => simpa [stopTask, hg, hc] using h
      | some cid =>
        cases hs : (rt ["podman", "stop", cid]).success with
        | false => simpa [stopTask, hg, hc, hs] using h
        | true => simp [stopTask, hg, hc, hs, cidSomeAt, mapGet_mapSet_self]
  · rw [cidSomeAt, stopTask_lookup_other hk]
    exact h

theorem syncedTask_containerId (rt : Runtime) (now : String) (task : Task) :
    (syncedTask rt now task).containerId = task.containerId := by
  cases hc : task.containerId with
  | none => simp [syncedTask, hc]
  | some cid =>
    cases hgi : getContainerInfo rt cid with
    | none => simp [syncedTask, hc, hgi]
    | some info =>
      by_cases hst :
          (if info.status = "running" then TaskStatus.running else TaskStatus.stopped) ≠ task.status
      · simp [syncedTask, hc, hgi, hst]
      · push_neg at hst
        simp [syncedTask, hc, hgi, hst]

theorem syncStep_cidSomeAt {rt : Runtime} {now : String} {acc : TaskMap × List Event}
    {k0 k : String} (h : cidSomeAt acc.1 k = true) :
    cidSomeAt (syncStep rt now acc k0).1 k = true := by
  by_cases hk : k0 = k
  · subst hk
    cases hg : mapGet acc.1 k0 with
    | none => simp [cidSomeAt, hg] at h
    | some task =>
      have h2 : task.containerId.isSome = true := cidSome_of_cidSomeAt hg h
      simp [cidSomeAt, syncStep_lookup_self hg, syncedTask_containerId, h2]
  · rw [cidSomeAt, syncStep_lookup_other hk]
    exact h

theorem restartedTask_cidSome {rt : Runtime} {now : String} {task : Task}
    (h : task.containerId.isSome = true) :
    (restartedTask rt now task).containerId.isSome = true := by
  by_cases hq : task.autoRestart = true ∧ task.status = TaskStatus.running
  · cases hc : task.containerId with
    | none => simp [hc] at h
    | some cid =>
      cases hgi : getContainerInfo rt cid with
      | none => simp [restartedTask, hq, hc, hgi, startedTask_cidSome h]
      | some info =>
        by_cases hrun : info.status ≠ "running"
        · simp [restartedTask, hq, hc, hgi, hrun, startedTask_cidSome h]
        · push_neg at hrun
          simp [restartedTask, hq, hc, hgi, hrun, h]
  · simp [restartedTask, hq, h]

theorem restartStep_cidSomeAt {rt : Runtime} {now : String} {acc : TaskMap × List Event}
    {k0 k : String} (h : cidSomeAt acc.1 k = true) :
    cidSomeAt (restartStep rt now acc k0).1 k = true := by
  by_cases hk : k0 = k
  · subst hk
    cases hg : mapGet acc.1 k0 with
    | none => simp [cidSomeAt, hg] at h
    | some task =>
      have h2 : task.containerId.isSome = true := cidSome_of_cidSomeAt hg h
      simp [cidSomeAt, restartStep_lookup_self hg, restartedTask_cidSome h2]
  · rw [cidSomeAt, restartStep_lookup_other hk]
    exact h

theorem syncFold_cidSomeAt {rt : Runtime} {now : String} (ks : List String)
    (acc : TaskMap × List Event) {k : String} (h : cidSomeAt acc.1 k = true) :
    cidSomeAt ((ks.foldl (syncStep rt now) acc).1) k = true := by
  induction ks generalizing acc with
  | nil => exact h
  | cons k0 rest ih => rw [List.foldl_cons]; exact ih _ (syncStep_cidSomeAt h)

theorem restartFold_cidSomeAt {rt : Runtime} {now : String} (ks : List String)
    (acc : TaskMap × List Event) {k : String} (h : cidSomeAt acc.1 k = true) :
    cidSomeAt ((ks.foldl (restartStep rt now) acc).1) k = true := by
  induction ks generalizing acc with
  | nil => exact h
  | cons k0 rest ih => rw [List.foldl_cons]; exact ih _ (restartStep_cidSomeAt h)

theorem stopTask_lookup_self {rt : Runtime} {now : String} {ts : TaskMap}
    {taskId : String} {task : Task} (h : mapGet ts taskId = some task) :
    mapGet (stopTask rt now ts taskId).1 taskId = some task ∨
    mapGet (stopTask rt now ts taskId).1 taskId =
      some { task with status := TaskStatus.stopped, updatedAt := now } := by
  cases hc : task.containerId with
  | none =>
    left
    rw [show (stopTask rt now ts taskId).1 = ts from by simp [stopTask, h, hc]]
    exact h
  | some cid =>
    cases hs : (rt ["podman", "stop", cid]).success with
    | false =>
      left
      rw [show (stopTask rt now ts taskId).1 = ts from by simp [stopTask, h, hc, hs]]
      exact h
    | true =>
      right
      simp [stopTask, h, hc, hs, mapGet_mapSet_self]

theorem removeTask_map {rt : Runtime} {now : String} {ts : TaskMap}
    {taskId : String} {task : Task} (hmem : mapGet ts taskId = some task) :
    (removeTask rt now ts taskId).1 =
      mapDelete
        (if task.containerId.isSome = true ∧ task.status = TaskStatus.running
         then (stopTask rt now ts taskId).1 else ts) taskId := by
  by_cases hifc : task.containerId.isSome = true ∧ task.status = TaskStatus.running <;>
    simp [removeTask, hmem, hifc]

/-- The orchestrator's map-mutating operations, for stating map-level
invariants uniformly (`getTaskLogs` never touches the map). -/
inductive Op where
  | create (newId now : String) (d : TaskData)
  | start (rt : Runtime) (now taskId : String)
  | stop (rt : Runtime) (now taskId : String)
  | remove (rt : Runtime) (now taskId : String)
  | sync (rt : Runtime) (now : String)
  | restartSweep (rt : Runtime) (now : String)

def applyOp (ts : TaskMap) : Op → TaskMap
  | Op.create newId now d => (createTask newId now ts d).1
  | Op.start rt now taskId => (startTask rt now ts taskId).1
  | Op.stop rt now taskId => (stopTask rt now ts taskId).1
  | Op.remove rt now taskId => (removeTask rt now ts taskId).1
  | Op.sync rt now => (updateTaskStatuses rt now ts).1
  | Op.restartSweep rt now => (restartAutoRestartTasks rt now ts).1

/-- `createTask` ids come from `crypto.randomUUID()`; we assume they are
fresh (not already a key of the map). -/
def opIdFresh (ts : TaskMap) : Op → Prop
  | Op.create newId _ _ => newId ∉ ts.map Prod.fst
  | _ => True

/-- The runtime through which an operation can issue `podman run`, when
any: `startTask` itself, and the auto-restart sweep (whose restarts go
through `startTask`). Every other operation issues no run. -/
def opRuntime : Op → Option Runtime
  | Op.start rt _ _ => some rt
  | Op.restartSweep rt _ => some rt
  | _ => none

theorem startedTask_containerId (rt : Runtime) (now : String) (task : Task) :
    ((rt (buildRunCmd task)).success = true ∧
      (startedTask rt now task).containerId =
        some ((rt (buildRunCmd task)).output.trim)) ∨
    ((rt (buildRunCmd task)).success = false ∧
      (startedTask rt now task).containerId = task.containerId) := by
  cases hs : (rt (buildRunCmd task)).success with
  | false => exact Or.inr ⟨rfl, by simp [startedTask, hs]⟩
  | true => exact Or.inl ⟨rfl, by simp [startedTask, hs]⟩

theorem restartedTask_cases (rt : Runtime) (now : String) (task : Task) :
    restartedTask rt now task = task ∨
    restartedTask rt now task = startedTask rt now task := by
  by_cases hq : task.autoRestart = true ∧ task.status = TaskStatus.running
  · cases hc : task.containerId with
    | none => exact Or.inl (by simp [restartedTask, hq, hc])
    | some cid =>
      cases hgi : getContainerInfo rt cid with
      | none => exact Or.inr (by simp [restartedTask, hq, hc, hgi])
      | some info =>
        by_cases hrun : info.status ≠ "running"
        · exact Or.inr (by simp [restartedTask, hq, hc, hgi, hrun])
        · push_neg at hrun
          exact Or.inl (by simp [restartedTask, hq, hc, hgi, hrun])
  · exact Or.inl (by simp [restartedTask, hq])

theorem stopTask_containerId_eq {rt : Runtime} {now : String} {ts : TaskMap}
    {taskId k : String} {t t' : Task} (hbefore : mapGet ts k = some t)
    (hafter : mapGet (stopTask rt now ts taskId).1 k = some t') :
    t'.containerId = t.containerId := by
  by_cases hk : taskId = k
  · subst hk
    rcases stopTask_lookup_self hbefore with h2 | h2 <;>
      · rw [h2] at hafter
        injection hafter with h3
        rw [← h3]
  · rw [stopTask_lookup_other hk, hbefore] at hafter
    injection hafter with h3
    rw [← h3]

theorem removeTask_lookup_other {rt : Runtime} {now : String} {ts : TaskMap}
    {taskId k : String} (hk : taskId ≠ k) :
    mapGet (removeTask rt now ts taskId).1 k = mapGet ts k := by
  cases hg : mapGet ts taskId with
  | none => simp [removeTask, hg]
  | some task =>
    rw [removeTask_map hg]
    by_cases hifc : task.containerId.isSome = true ∧ task.status = TaskStatus.running
    · rw [if_pos hifc, mapGet_mapDelete_other _ hk, stopTask_lookup_other hk]
    · rw [if_neg hifc, mapGet_mapDelete_other _ hk]

/-- C7 counterexample: create a task (request without `containerId`), then
start it against a runtime whose `run` fails. Exactly one run invocation —
a start attempt — has occurred, yet the stored task still has no
`containerId`: the "set if at least one start attempt has occurred"
direction of the claimed invariant is false. -/
theorem c7_counterexample :
    ((startTask rtAllFail ("T1")
        (createTask ("id1") ("T0") [] dWeb).1 ("id1")).2.2).countP (isRunFor ("id1")) = 1 ∧
    ((mapGet (startTask rtAllFail ("T1")
        (createTask ("id1") ("T0") [] dWeb).1 ("id1")).1 ("id1")).map
      Task.containerId) = some none := by decide

/-- C7 (amended): `containerId` is set only by a successful run inside
`startTask` (also when invoked by the auto-restart sweep) and is never
unset while the record exists — `removeTask` deletes the whole record
instead. Concretely: (a) across every operation, a surviving task whose
`containerId` was set still has it set (create ids assumed fresh, keys
unique); (b) a task created from a request without `containerId` starts
with none; (c) `stopTask` never changes any task's `containerId` — in
particular a successful stop leaves it set; (d) across every operation, a
surviving task's `containerId` is exactly unchanged — so an unset one
stays unset — unless the operation is a `startTask` or the auto-restart
sweep whose `podman run` for that task succeeded, in which case the new
`containerId` is precisely that run's trimmed output; (e) `startTask`
whose run succeeds does record the returned container id. -/
theorem c7_containerId_invariant :
    (∀ (op : Op) (ts : TaskMap) (k : String) (t t' : Task),
      (ts.map Prod.fst).Nodup → opIdFresh ts op →
      mapGet ts k = some t → mapGet (applyOp ts op) k = some t' →
      t.containerId.isSome = true → t'.containerId.isSome = true) ∧
    (∀ (newId now : String) (ts : TaskMap) (d : TaskData),
      d.containerId = none → (createTask newId now ts d).2.1.containerId = none) ∧
    (∀ (rt : Runtime) (now : String) (ts : TaskMap) (taskId k : String) (t t' : Task),
      mapGet ts k = some t → mapGet (stopTask rt now ts taskId).1 k = some t' →
      t'.containerId = t.containerId) ∧
    (∀ (op : Op) (ts : TaskMap) (k : String) (t t' : Task),
      (ts.map Prod.fst).Nodup → opIdFresh ts op →
      mapGet ts k = some t → mapGet (applyOp ts op) k = some t' →
      t'.containerId = t.containerId ∨
      (∃ rt : Runtime, opRuntime op = some rt ∧
        (rt (buildRunCmd t)).success = true ∧
        t'.containerId = some ((rt (buildRunCmd t)).output.trim))) ∧
    (∀ (rt : Runtime) (now : String) (ts : TaskMap) (taskId : String) (task : Task),
      mapGet ts taskId = some task → (rt (buildRunCmd task)).success = true →
      mapGet (startTask rt now ts taskId).1 taskId = some (startedTask rt now task) ∧
      (startedTask rt now task).containerId =
        some ((rt (buildRunCmd task)).output.trim)) := by
  refine ⟨?_, ?_, ?_, ?_, ?_⟩
  · intro op ts k t t' hnd hfresh hbefore hafter hsome
    have hcb : cidSomeAt ts k = true := by simp [cidSomeAt, hbefore, hsome]
    cases op with
    | create newId now d =>
      have hk : newId ≠ k := fun hc => hfresh (hc ▸ key_mem_of_mapGet_eq_some hbefore)
      have : mapGet (applyOp ts (Op.create newId now d)) k = mapGet ts k := by
        simp only [applyOp, createTask]
        exact mapGet_mapSet_other _ _ hk
      rw [this, hbefore] at hafter
      injection hafter with h
      rw [← h]
      exact hsome
    | start rt now taskId =>
      exact cidSome_of_cidSomeAt hafter (startTask_cidSomeAt hcb)
    | stop rt now taskId =>
      exact cidSome_of_cidSomeAt hafter (stopTask_cidSomeAt hcb)
    | remove rt now taskId =>
      cases hg : mapGet ts taskId with
      | none =>
        have : applyOp ts (Op.remove rt now taskId) = ts := by simp [applyOp, removeTask, hg]
        rw [this, hbefore] at hafter
        injection hafter with h
        rw [← h]
        exact hsome
      | some task =>
        by_cases hk : taskId = k
        · subst hk
          exfalso
          by_cases hifc : task.containerId.isSome = true ∧ task.status = TaskStatus.running
          · have hnd2 : (((stopTask rt now ts taskId).1).map Prod.fst).Nodup := by
              rw [stopTask_keys]; exact hnd
            rw [show applyOp ts (Op.remove rt now taskId) = (removeTask rt now ts taskId).1
                from rfl, removeTask_map hg, if_pos hifc, mapGet_mapDelete_self hnd2] at hafter
            exact Option.noConfusion hafter
          · rw [show applyOp ts (Op.remove rt now taskId) = (removeTask rt now ts taskId).1
                from rfl, removeTask_map hg, if_neg hifc, mapGet_mapDelete_self hnd] at hafter
            exact Option.noConfusion hafter
        · have hstep : mapGet (applyOp ts (Op.remove rt now taskId)) k = mapGet ts k := by
            rw [show applyOp ts (Op.remove rt now taskId) = (removeTask rt now ts taskId).1
              from rfl, removeTask_map hg]
            by_cases hifc : task.containerId.isSome = true ∧ task.status = TaskStatus.running
            · rw [if_pos hifc, mapGet_mapDelete_other _ hk, stopTask_lookup_other hk]
            · rw [if_neg hifc, mapGet_mapDelete_other _ hk]
          rw [hstep, hbefore] at hafter
          injection hafter with h
          rw [← h]
          exact hsome
    | sync rt now =>
      have hs : cidSomeAt (applyOp ts (Op.sync rt now)) k = true := by
        simp only [applyOp, updateTaskStatuses]
        exact syncFold_cidSomeAt _ _ hcb
      exact cidSome_of_cidSomeAt hafter hs
    | restartSweep rt now =>
      have hs : cidSomeAt (applyOp ts (Op.restartSweep rt now)) k = true := by
        simp only [applyOp, restartAutoRestartTasks]
        exact restartFold_cidSomeAt _ _ hcb
      exact cidSome_of_cidSomeAt hafter hs
  · intro newId now ts d hd
    show d.containerId = none
    exact hd
  · intro rt now ts taskId k t t' hbefore hafter
    exact stopTask_containerId_eq hbefore hafter
  · intro op ts k t t' hnd hfresh hbefore hafter
    cases op with
    | create newId now d =>
      have hk : newId ≠ k := fun hc => hfresh (hc ▸ key_mem_of_mapGet_eq_some hbefore)
      have heq : mapGet (applyOp ts (Op.create newId now d)) k = mapGet ts k := by
        simp only [applyOp, createTask]
        exact mapGet_mapSet_other _ _ hk
      rw [heq, hbefore] at hafter
      injection hafter with h
      rw [← h]
      exact Or.inl rfl
    | start rt now taskId =>
      by_cases hk : taskId = k
      · subst hk
        rw [show applyOp ts (Op.start rt now taskId) = (startTask rt now ts taskId).1
          from rfl, startTask_lookup_self hbefore] at hafter
        injection hafter with h
        rw [← h]
        rcases startedTask_containerId rt now t with ⟨hs, hc⟩ | ⟨hs, hc⟩
        · exact Or.inr ⟨rt, rfl, hs, hc⟩
        · exact Or.inl hc
      · rw [show applyOp ts (Op.start rt now taskId) = (startTask rt now ts taskId).1
          from rfl, startTask_lookup_other hk, hbefore] at hafter
        injection hafter with h
        rw [← h]
        exact Or.inl rfl
    | stop rt now taskId =>
      exact Or.inl (stopTask_containerId_eq hbefore hafter)
    | remove rt now taskId =>
      by_cases hk : taskId = k
      · subst hk
        exfalso
        cases hg : mapGet ts taskId with
        | none => rw [hg] at hbefore; exact Option.noConfusion hbefore
        | some task =>
          by_cases hifc : task.containerId.isSome = true ∧ task.status = TaskStatus.running
          · have hnd2 : (((stopTask rt now ts taskId).1).map Prod.fst).Nodup := by
              rw [stopTask_keys]; exact hnd
            rw [show applyOp ts (Op.remove rt now taskId) = (removeTask rt now ts taskId).1
                from rfl, removeTask_map hg, if_pos hifc, mapGet_mapDelete_self hnd2] at hafter
            exact Option.noConfusion hafter
          · rw [show applyOp ts (Op.remove rt now taskId) = (removeTask rt now ts taskId).1
                from rfl, removeTask_map hg, if_neg hifc, mapGet_mapDelete_self hnd] at hafter
            exact Option.noConfusion hafter
      · rw [show applyOp ts (Op.remove rt now taskId) = (removeTask rt now ts taskId).1
          from rfl, removeTask_lookup_other hk, hbefore] at hafter
        injection hafter with h
        rw [← h]
        exact Or.inl rfl
    | sync rt now =>
      rw [show applyOp ts (Op.sync rt now) = (updateTaskStatuses rt now ts).1 from rfl,
        updateTaskStatuses_lookup hnd hbefore] at hafter
      injection hafter with h
      rw [← h]
      exact Or.inl (syncedTask_containerId rt now t)
    | restartSweep rt now =>
      rw [show applyOp ts (Op.restartSweep rt now) = (restartAutoRestartTasks rt now ts).1
        from rfl, restartAutoRestartTasks_lookup hnd hbefore] at hafter
      injection hafter with h
      rw [← h]
      rcases restartedTask_cases rt now t with hcase | hcase
      · rw [hcase]
        exact Or.inl rfl
      · rw [hcase]
        rcases startedTask_containerId rt now t with ⟨hs, hc⟩ | ⟨hs, hc⟩
        · exact Or.inr ⟨rt, rfl, hs, hc⟩
        · exact Or.inl hc
  · intro rt now ts taskId task hmem hs
    refine ⟨startTask_lookup_self hmem, ?_⟩
    simp [startedTask, hs]

/-- C7 witness: part (a) on a failed restart of a running task (the
container reference survives), part (b) on a fresh create, part (c) on a
successful stop (the container reference survives the stop), part (d) on a
failed start of a never-started task (the absent container reference stays
absent, or else a successful run produced it), part (e) on a successful
start (the returned id is recorded). -/
theorem c7_containerId_invariant_witness :
    (({ taskRunning with status := TaskStatus.error, updatedAt := "T2" } : Task)).containerId.isSome = true ∧
    (createTask ("id1") ("T0") [] dWeb).2.1.containerId = none ∧
    (({ taskRunning with status := TaskStatus.stopped, updatedAt := "T2" } : Task)).containerId =
      taskRunning.containerId ∧
    ((({ taskStopped with status := TaskStatus.error, updatedAt := "T2" } : Task)).containerId =
        taskStopped.containerId ∨
      (∃ rt : Runtime, opRuntime (Op.start rtAllFail ("T2") ("t1")) = some rt ∧
        (rt (buildRunCmd taskStopped)).success = true ∧
        (({ taskStopped with status := TaskStatus.error, updatedAt := "T2" } : Task)).containerId =
          some ((rt (buildRunCmd taskStopped)).output.trim))) ∧
    (mapGet (startTask rtAllOk ("T2") tsStopped ("t1")).1 ("t1") =
        some (startedTask rtAllOk ("T2") taskStopped) ∧
      (startedTask rtAllOk ("T2") taskStopped).containerId =
        some ((rtAllOk (buildRunCmd taskStopped)).output.trim)) := by
  refine ⟨?_, ?_, ?_, ?_, ?_⟩
  · exact c7_containerId_invariant.1 (Op.start rtAllFail ("T2") ("t1")) tsRunning ("t1")
      taskRunning ({ taskRunning with status := TaskStatus.error, updatedAt := "T2" })
      (by decide) trivial (by decide) (by decide) (by decide)
  · exact c7_containerId_invariant.2.1 ("id1") ("T0") [] dWeb (by decide)
  · exact c7_containerId_invariant.2.2.1 rtAllOk ("T2") tsRunning ("t1") ("t1")
      taskRunning ({ taskRunning with status := TaskStatus.stopped, updatedAt := "T2" })
      (by decide) (by decide)
  · exact c7_containerId_invariant.2.2.2.1 (Op.start rtAllFail ("T2") ("t1")) tsStopped
      ("t1") taskStopped ({ taskStopped with status := TaskStatus.error, updatedAt := "T2" })
      (by decide) trivial (by decide) (by decide)
  · exact c7_containerId_invariant.2.2.2.2 rtAllOk ("T2") tsStopped ("t1") taskStopped
      (by decide) (by decide)

/-- C8 counterexample: a create request with empty `name` and empty `image`
is accepted: the record is returned and inserted into the store, with no
validation failure of any kind (`createTask` has no failure channel at
all). -/
theorem c8_counterexample :
    (createTask ("id1") ("T0") [] dEmpty).2.1.name = "" ∧
    (createTask ("id1") ("T0") [] dEmpty).2.1.image = "" ∧
    mapGet (createTask ("id1") ("T0") [] dEmpty).1 ("id1") =
      some (createTask ("id1") ("T0") [] dEmpty).2.1 := by decide

/-- C8 (amended): `createTask` performs no validation whatsoever — for
every request, including one with empty `name` or `image`, it builds the
record under the supplied fresh id (modelling `crypto.randomUUID()`), sets
status `stopped`, stamps both timestamps with the current time, inserts the
record into the map, persists once, and returns the record. -/
theorem c8_create_no_validation (newId now : String) (ts : TaskMap) (d : TaskData) :
    (createTask newId now ts d).2.1 =
      { id := newId, name := d.name, image := d.image, command := d.command,
        env := d.env, ports := d.ports, volumes := d.volumes,
        status := TaskStatus.stopped, containerId := d.containerId,
        createdAt := now, updatedAt := now, autoRestart := d.autoRestart } ∧
    mapGet (createTask newId now ts d).1 newId = some (createTask newId now ts d).2.1 ∧
    (createTask newId now ts d).2.2 = [Event.save (createTask newId now ts d).1] := by
  refine ⟨rfl, ?_, rfl⟩
  simp only [createTask]
  exact mapGet_mapSet_self _ _ _

/-- C9 counterexample: a transport-level failure ("cannot connect to podman
socket") and an unambiguous not-found failure both make `getContainerInfo`
return `None` — the function's return type has no error value at all, so a
transport/command failure is not distinguishable from absence. -/
theorem c9_counterexample :
    getContainerInfo rtAllFail ("abc") = none ∧
    getContainerInfo rtNotFoundFail ("abc") = none := by decide

/-- C9 (amended): `getContainerInfo` collapses every failed inspect
invocation — absence and transport/command failures alike — to `None`, and
returns the parsed snapshot exactly when the invocation succeeds; no
distinguishable error value exists. -/
theorem c9_inspect_collapses_failures (rt : Runtime) (cid : String) :
    ((rt (inspectCmd cid)).success = false → getContainerInfo rt cid = none) ∧
    ((rt (inspectCmd cid)).success = true →
      getContainerInfo rt cid = some (parseInspectOutput (rt (inspectCmd cid)).output)) := by
  constructor <;> intro h <;> simp [getContainerInfo, h]

/-- C9 witness: the amended theorem applied to the transport-failure
runtime and to the all-success runtime. -/
theorem c9_inspect_collapses_failures_witness :
    getContainerInfo rtAllFail ("abc") = none ∧
    getContainerInfo rtAllOk ("abc") =
      some (parseInspectOutput (rtAllOk (inspectCmd ("abc"))).output) :=
  ⟨(c9_inspect_collapses_failures rtAllFail ("abc")).1 (by decide),
    (c9_inspect_collapses_failures rtAllOk ("abc")).2 (by decide)⟩

/-- C10: `startTask` guards only on the task's existence, never on its
current status: for every stored task — also one already `running` or
`pending` — it issues exactly one new `podman run`, and on success
overwrites `containerId` with the newly returned identifier, dropping any
previous container reference. -/
theorem c10_no_status_guard (rt : Runtime) (now : String) (ts : TaskMap)
    (taskId : String) (task : Task) (hmem : mapGet ts taskId = some task) :
    ((startTask rt now ts taskId).2.2).countP (isRunFor task.id) = 1 ∧
    ((rt (buildRunCmd task)).success = true →
      mapGet (startTask rt now ts taskId).1 taskId = some (startedTask rt now task) ∧
      (startedTask rt now task).containerId =
        some ((rt (buildRunCmd task)).output.trim)) := by
  constructor
  · rw [countP_startTask_trace task.id hmem]
    simp
  · intro hs
    exact ⟨startTask_lookup_self hmem, by simp [startedTask, hs]⟩

/-- C10 witness: starting a task that is already `running` with container
`c1` issues a run and replaces the container reference with the newly
returned `abc123`. -/
theorem c10_no_status_guard_witness :
    ((startTask rtAllOk ("T2") tsRunning ("t1")).2.2).countP (isRunFor ("t1")) = 1 ∧
    (startedTask rtAllOk ("T2") taskRunning).containerId =
      some ((rtAllOk (buildRunCmd taskRunning)).output.trim) := by
  have h := c10_no_status_guard rtAllOk ("T2") tsRunning ("t1") taskRunning (by decide)
  exact ⟨h.1, (h.2 (by decide)).2⟩

end Orch
